import Mathlib

/-!
Verification of the diagnostic core of the `pylsp-mypy` plugin
(`pylsp_mypy/plugin.py`): the mypy-output line parser, the override
merging, the diagnostics assembly, the config-file search and the
shutdown hook, shallowly embedded in Lean.
-/

namespace PylspMypy

/-! ## Python values

The overrides list is `List[Any]` in Python: it may mix strings with the
boolean sentinel `True`, and comparison against `True` uses Python `==`,
under which `True == 1` holds. `PyVal` models the values that can occur
in argument lists. -/

inductive PyVal where
  | str (s : String)
  | bool (b : Bool)
  | int (n : Int)
deriving DecidableEq, Repr

/-- Python `x == True` for a `PyVal` (`True == True`, `True == 1`;
strings never compare equal to `True`). -/
def isTrueLike : PyVal → Bool
  | .str _ => false
  | .bool b => b
  | .int n => n == 1

/-- Index of the first element `e` of the list with `e == True` in the
Python sense, as consumed by `True not in iter(overrides)`. -/
def firstTrueIdx : List PyVal → Option Nat
  | [] => none
  | x :: xs => if isTrueLike x then some 0 else (firstTrueIdx xs).map (· + 1)

/-- Model of `apply_overrides(args, overrides)` from `plugin.py`:

    overrides_iterator = iter(overrides)
    if True not in overrides_iterator:
        return overrides
    rest = list(overrides_iterator)
    return overrides[: -(len(rest) + 1)] + args + rest

`True not in it` advances the iterator past the first element equal to
`True`, so `rest` is everything after that element; the negative slice
`overrides[: -(len(rest) + 1)]` keeps the first
`len(overrides) - (len(rest) + 1)` elements (clamped at zero, as in
Python). -/
def apply_overrides (args overrides : List PyVal) : List PyVal :=
  match firstTrueIdx overrides with
  | none => overrides
  | some i =>
    let rest := overrides.drop (i + 1)
    overrides.take (overrides.length - (rest.length + 1)) ++ args ++ rest

lemma firstTrueIdx_eq_none {l : List PyVal} (h : ∀ x ∈ l, isTrueLike x = false) :
    firstTrueIdx l = none := by
  induction l with
  | nil => rfl
  | cons x xs ih =>
    simp only [firstTrueIdx, h x (List.mem_cons_self x xs)]
    simp only [Bool.false_eq_true, if_false]
    rw [ih (fun y hy => h y (List.mem_cons_of_mem x hy))]
    rfl

lemma firstTrueIdx_append {pre : List PyVal} {v : PyVal} (post : List PyVal)
    (hpre : ∀ x ∈ pre, isTrueLike x = false) (hv : isTrueLike v = true) :
    firstTrueIdx (pre ++ v :: post) = some pre.length := by
  induction pre with
  | nil => simp [firstTrueIdx, hv]
  | cons x xs ih =>
    have hx : isTrueLike x = false := hpre x (List.mem_cons_self x xs)
    have ih' := ih (fun y hy => hpre y (List.mem_cons_of_mem x hy))
    simp [firstTrueIdx, hx, ih']

lemma apply_overrides_splice (args pre post : List PyVal) (v : PyVal)
    (hpre : ∀ x ∈ pre, isTrueLike x = false) (hv : isTrueLike v = true) :
    apply_overrides args (pre ++ v :: post) = pre ++ args ++ post := by
  unfold apply_overrides
  rw [firstTrueIdx_append post hpre hv]
  have hdrop : (pre ++ v :: post).drop (pre.length + 1) = post := by
    induction pre with
    | nil => simp
    | cons x xs ih => simpa using ih (fun y hy => hpre y (List.mem_cons_of_mem x hy))
  simp only [hdrop]
  have hlen : (pre ++ v :: post).length = pre.length + (post.length + 1) := by
    simp [List.length_append]
  have htake : (pre ++ v :: post).length - (post.length + 1) = pre.length := by
    omega
  rw [htake]
  have : (pre ++ v :: post).take pre.length = pre := by
    rw [List.take_append_of_le_length (by simp)]
    simp
  rw [this, List.append_assoc]

/-- C3: For every base argument list and every override list containing at
most one sentinel (the literal `True`): if no sentinel is present,
`apply_overrides` returns the override list unchanged (base discarded); if
the sentinel is at index `i` — i.e. the list is `pre ++ [True] ++ post`
with no sentinel in `pre` or `post` — the result is `pre ++ base ++ post`,
that is `overrides[0:i] + base + overrides[i+1:]`. -/
theorem apply_overrides_sentinel_spec
    (args overrides pre post : List PyVal)
    (hnone : ∀ x ∈ overrides, isTrueLike x = false)
    (hpre : ∀ x ∈ pre, isTrueLike x = false)
    (hpost : ∀ x ∈ post, isTrueLike x = false) :
    apply_overrides args overrides = overrides ∧
    apply_overrides args (pre ++ PyVal.bool true :: post) = pre ++ args ++ post := by
  constructor
  · unfold apply_overrides
    rw [firstTrueIdx_eq_none hnone]
  · exact apply_overrides_splice args pre post _ hpre (by rfl)

/-- Witness for C3 at concrete inputs:
`apply_overrides ["--strict"] ["x","y"] = ["x","y"]` and
`apply_overrides ["--strict"] ["--pre", True, "--post"] = ["--pre","--strict","--post"]`. -/
theorem apply_overrides_sentinel_spec_witness :
    apply_overrides [.str "--strict"] [.str "x", .str "y"] = [.str "x", .str "y"] ∧
    apply_overrides [.str "--strict"] ([.str "--pre"] ++ PyVal.bool true :: [.str "--post"]) =
      [.str "--pre"] ++ [.str "--strict"] ++ [.str "--post"] :=
  apply_overrides_sentinel_spec [.str "--strict"] [.str "x", .str "y"]
    [.str "--pre"] [.str "--post"]
    (by decide) (by decide) (by decide)

/-- C10: the sentinel test is Python equality with `True`, so the integer
`1` acts as a splice marker; the splice happens at the first
sentinel-equal element and everything after it (later sentinel-equal
elements included) is kept literally. -/
theorem apply_overrides_first_sentinel
    (args pre post : List PyVal) (v : PyVal)
    (hpre : ∀ x ∈ pre, isTrueLike x = false) (hv : isTrueLike v = true) :
    isTrueLike (PyVal.int 1) = true ∧
    apply_overrides args (pre ++ v :: post) = pre ++ args ++ post :=
  ⟨by decide, apply_overrides_splice args pre post v hpre hv⟩

/-- Witness for C10: the integer `1` triggers the splice, and a later
`True` in the suffix is kept literally in the result. -/
theorem apply_overrides_first_sentinel_witness :
    isTrueLike (PyVal.int 1) = true ∧
    apply_overrides [.str "a"] ([.str "p"] ++ PyVal.int 1 :: [.str "q", .bool true]) =
      [.str "p"] ++ [.str "a"] ++ [.str "q", .bool true] :=
  apply_overrides_first_sentinel [.str "a"] [.str "p"] [.str "q", .bool true]
    (PyVal.int 1) (by decide) (by decide)

/-! ## The mypy output line pattern

`line_pattern` in `plugin.py` is

    ^(?P<file>.+):(?P<start_line>\d+):(?P<start_col>\d*):(?P<end_line>\d*):(?P<end_col>\d*):
    <space>(?P<severity>\w+): (?P<message>.+?)(?: +\[(?P<code>.+)\])?$

matched with `re.match` (anchored at the start).  The embedding below
reproduces Python's backtracking priority: the greedy `(?P<file>.+)`
tries the longest prefix first; the numeric (`\d+`/`\d*`) and word
(`\w+`) groups are each followed by a character outside their class, so
maximal munch is the only split that can succeed; the lazy
`(?P<message>.+?)` tries the shortest prefix first, preferring the
optional bracket group over the bare end of input; `$` also matches just
before one trailing newline, which is stripped up front (no other part
of the pattern can match a newline). -/

/-- Captures of `line_pattern`, all as the raw matched substrings. -/
structure LineMatch where
  file : String
  start_line : String
  start_col : String
  end_line : String
  end_col : String
  severity : String
  message : String
  code : Option String
deriving DecidableEq, Repr

/-- ASCII `\d`. -/
def isDigitChar (c : Char) : Bool := '0' ≤ c && c ≤ '9'

/-- ASCII `\w` (letters, digits, underscore). -/
def isWordChar (c : Char) : Bool :=
  ('a' ≤ c && c ≤ 'z') || ('A' ≤ c && c ≤ 'Z') || isDigitChar c || c == '_'

/-- Split off the maximal prefix of characters satisfying `p`. -/
def takeDrop (p : Char → Bool) (cs : List Char) : List Char × List Char :=
  (cs.takeWhile p, cs.dropWhile p)

/-- Consume one expected literal character. -/
def expectChar (c : Char) : List Char → Option (List Char)
  | x :: xs => if x == c then some xs else none
  | [] => none

/-- Match the trailing optional group ` +\[(?P<code>.+)\]` against all of
`cs`: one or more spaces (greedy, necessarily followed directly by `[`),
then the bracketed code, where the greedy `.+` followed by `\]$` forces
the code to be everything up to a final `]`; `.` never matches a
newline, and the code capture must be nonempty. -/
def parseBracket (cs : List Char) : Option (List Char) :=
  let sp := cs.takeWhile (· == ' ')
  if sp.isEmpty then none
  else
    match cs.dropWhile (· == ' ') with
    | '[' :: rest =>
      match rest.reverse with
      | ']' :: revCode =>
        if revCode.isEmpty || revCode.contains '\n' then none
        else some revCode.reverse
      | _ => none
    | _ => none

/-- Match `(?P<message>.+?)(?: +\[(?P<code>.+)\])?$` against all of the
input: the lazy `.+?` grows the message one character at a time, and for
each candidate message first tries the optional bracket group (the
greedy `?` prefers it), then the bare end of input. -/
def parseMsgLoop (acc : List Char) : List Char → Option (List Char × Option (List Char))
  | [] => none
  | c :: rest =>
    if c == '\n' then none
    else
      let msg := acc ++ [c]
      match parseBracket rest with
      | some code => some (msg, some code)
      | none => if rest.isEmpty then some (msg, none) else parseMsgLoop msg rest

/-- Match the part of `line_pattern` after the `file` capture:
`:(\d+):(\d*):(\d*):(\d*): (\w+): (.+?)(?: +\[(.+)\])?$`. -/
def parseTail (file : List Char) (cs : List Char) : Option LineMatch :=
  (expectChar ':' cs).bind fun cs =>
  let p1 := takeDrop isDigitChar cs
  if p1.1.isEmpty then none else
  (expectChar ':' p1.2).bind fun cs =>
  let p2 := takeDrop isDigitChar cs
  (expectChar ':' p2.2).bind fun cs =>
  let p3 := takeDrop isDigitChar cs
  (expectChar ':' p3.2).bind fun cs =>
  let p4 := takeDrop isDigitChar cs
  (expectChar ':' p4.2).bind fun cs =>
  (expectChar ' ' cs).bind fun cs =>
  let p5 := takeDrop isWordChar cs
  if p5.1.isEmpty then none else
  (expectChar ':' p5.2).bind fun cs =>
  (expectChar ' ' cs).bind fun cs =>
  (parseMsgLoop [] cs).bind fun mc =>
  some { file := String.mk file, start_line := String.mk p1.1,
         start_col := String.mk p2.1, end_line := String.mk p3.1,
         end_col := String.mk p4.1, severity := String.mk p5.1,
         message := String.mk mc.1, code := mc.2.map String.mk }

/-- Strip the single trailing newline that `$` may absorb. -/
def stripNL (cs : List Char) : List Char :=
  if cs.getLast? == some '\n' then cs.dropLast else cs

/-- Model of `line_pattern.match(line)`: strip one trailing newline (the
`$`), then try every nonempty `file` prefix, longest first, and parse
the remainder with `parseTail`. -/
def lineMatch (line : String) : Option LineMatch :=
  let cs := stripNL line.toList
  (List.range cs.length).findSome? (fun i =>
    let k := cs.length - i
    let file := cs.take k
    if file.contains '\n' then none
    else parseTail file (cs.drop k))

/-! ## Diagnostics and `parse_line` -/

/-- An LSP position as produced by the plugin (0-based line/character;
`Int` because the code subtracts 1 from reported values). -/
structure Position where
  line : Int
  character : Int
deriving DecidableEq, Repr

structure Range where
  start : Position
  «end» : Position
deriving DecidableEq, Repr

/-- One entry of the diagnostics list.  `code = none` models the Python
dict having no `"code"` key at all (the synthetic stderr diagnostic);
`code = some c` models the key being present, with `c = none` for the
Python value `None`. -/
structure Diagnostic where
  source : String
  range : Range
  message : String
  severity : Nat
  code : Option (Option String)
deriving DecidableEq, Repr

/-- The host's document, of which the plugin reads only the path (and
the source text, which the diagnostics logic never parses). -/
structure Document where
  path : String
deriving DecidableEq, Repr

/-- Python `s.endswith(suffix)`. -/
def strEndsWith (s suffix : String) : Bool :=
  suffix.toList.isSuffixOf s.toList

/-- Numeric value of a string of decimal digits. -/
def digitsVal (cs : List Char) : Nat :=
  cs.foldl (fun a c => a * 10 + (c.toNat - '0'.toNat)) 0

/-- Python `int(s)` on the captures of the `\d+`/`\d*` groups, which are
always strings of decimal digits: it succeeds exactly when the capture
is nonempty, while `int("")` raises `ValueError`.  (Other `int()` input
syntax — signs, whitespace — can never reach this call.) -/
def pyInt (s : String) : Except String Int :=
  if s = "" then .error "ValueError" else .ok (digitsVal s.toList)

/-- The filter on the `file` capture (plugin.py lines 73-79): a line is
discarded when the file is not the in-memory sentinel `"<string>"` and
the document is present with a truthy (nonempty) path that does not end
with the captured file. -/
def discardsFile (r : LineMatch) (document : Option Document) : Bool :=
  r.file != "<string>" &&
    (match document with
     | some d => !(d.path == "") && !(strEndsWith d.path r.file)
     | none => false)

/-- Model of `parse_line(line, document)` from `plugin.py`.  The
`Except` layer models Python exceptions: `.error` is the uncaught
`ValueError` that `int()` raises on an empty capture. -/
def parse_line (line : String) (document : Option Document) :
    Except String (Option Diagnostic) :=
  match lineMatch line with
  | none => .ok none
  | some r =>
    if discardsFile r document then .ok none
    else do
      let lineno ← pyInt r.start_line
      let offset ← pyInt r.start_col
      let end_lineno ← pyInt r.end_line
      let end_offset ← pyInt r.end_col
      let errno : Nat := if r.severity = "error" then 1 else 3
      .ok (some {
        source := "mypy",
        range := { start := { line := lineno - 1, character := offset - 1 },
                   «end» := { line := end_lineno - 1, character := end_offset } },
        message := r.message,
        severity := errno,
        code := some r.code })

lemma parseTail_start_line_nonempty {file cs : List Char} {r : LineMatch}
    (h : parseTail file cs = some r) : r.start_line ≠ "" := by
  simp only [parseTail, Option.bind_eq_some] at h
  obtain ⟨cs1, -, h⟩ := h
  split at h
  · exact absurd h (by simp)
  · next hne =>
    simp only [Option.bind_eq_some] at h
    obtain ⟨cs2, -, cs3, -, cs4, -, cs5, -, cs6, -, h⟩ := h
    split at h
    · exact absurd h (by simp)
    · simp only [Option.bind_eq_some] at h
      obtain ⟨cs7, -, cs8, -, mc, -, h⟩ := h
      injection h with h
      subst h
      intro hc
      apply hne
      have hnil : (takeDrop isDigitChar cs1).1 = [] := by
        have := congrArg String.data hc
        simpa using this
      simp [hnil]

lemma lineMatch_start_line_nonempty {line : String} {r : LineMatch}
    (h : lineMatch line = some r) : r.start_line ≠ "" := by
  unfold lineMatch at h
  obtain ⟨i, _, hstep⟩ := List.exists_of_findSome?_eq_some h
  dsimp only at hstep
  split at hstep
  · exact absurd hstep (by simp)
  · exact parseTail_start_line_nonempty hstep

lemma discardsFile_eq_false {r : LineMatch} {doc : Option Document}
    (hpass : r.file = "<string>" ∨ doc = none ∨
      ∃ d, doc = some d ∧ (d.path = "" ∨ strEndsWith d.path r.file = true)) :
    discardsFile r doc = false := by
  unfold discardsFile
  rcases hpass with hf | hd | ⟨d, hd, hp⟩
  · simp [hf]
  · subst hd; simp
  · subst hd
    rcases hp with hp | hp <;> simp [hp]

/-- Computation of `parse_line` on a matched line whose numeric captures
are all nonempty and whose file passes the document filter. -/
lemma parse_line_eval (line : String) (doc : Option Document) (r : LineMatch)
    (h : lineMatch line = some r)
    (hsl : r.start_line ≠ "") (hsc : r.start_col ≠ "")
    (hel : r.end_line ≠ "") (hec : r.end_col ≠ "")
    (hd : discardsFile r doc = false) :
    parse_line line doc = Except.ok (some {
      source := "mypy",
      range := { start := { line := (digitsVal r.start_line.toList : Int) - 1,
                            character := (digitsVal r.start_col.toList : Int) - 1 },
                 «end» := { line := (digitsVal r.end_line.toList : Int) - 1,
                            character := (digitsVal r.end_col.toList : Int) } },
      message := r.message,
      severity := if r.severity = "error" then 1 else 3,
      code := some r.code }) := by
  simp only [parse_line, h, hd, Bool.false_eq_true, if_false,
    pyInt, if_neg hsl, if_neg hsc, if_neg hel, if_neg hec]
  rfl

/-- C1: for every output line matching `line_pattern` with nonempty
numeric captures (and passing the document filter), `parse_line` returns
a diagnostic whose `range.start` is `(startLine-1, startCol-1)`, whose
`range.end` is `(endLine-1, endCol)` — no decrement of the end column —
whose severity is 1 (Error) exactly when the severity token is `"error"`
and 3 (Information) otherwise, and whose message and optional code are
the captures verbatim. -/
theorem parse_line_positions (line : String) (doc : Option Document) (r : LineMatch)
    (h : lineMatch line = some r)
    (hsc : r.start_col ≠ "") (hel : r.end_line ≠ "") (hec : r.end_col ≠ "")
    (hpass : r.file = "<string>" ∨ doc = none ∨
      ∃ d, doc = some d ∧ (d.path = "" ∨ strEndsWith d.path r.file = true)) :
    parse_line line doc = Except.ok (some {
      source := "mypy",
      range := { start := { line := (digitsVal r.start_line.toList : Int) - 1,
                            character := (digitsVal r.start_col.toList : Int) - 1 },
                 «end» := { line := (digitsVal r.end_line.toList : Int) - 1,
                            character := (digitsVal r.end_col.toList : Int) } },
      message := r.message,
      severity := if r.severity = "error" then 1 else 3,
      code := some r.code }) :=
  parse_line_eval line doc r h (lineMatch_start_line_nonempty h) hsc hel hec
    (discardsFile_eq_false hpass)

/-- Witness for C1: a concrete error line against a matching document:
1-based `5:3 .. 5:10` becomes 0-based start `(4,2)` and exclusive end
`(4,10)`, severity 1, message and code verbatim. -/
theorem parse_line_positions_witness :
    parse_line "x.py:5:3:5:10: error: boom [name-defined]" (some ⟨"/a/x.py"⟩) =
      Except.ok (some
        { source := "mypy",
          range := { start := { line := 4, character := 2 },
                     «end» := { line := 4, character := 10 } },
          message := "boom", severity := 1,
          code := some (some "name-defined") }) := by
  have h := parse_line_positions "x.py:5:3:5:10: error: boom [name-defined]"
    (some ⟨"/a/x.py"⟩)
    ⟨"x.py", "5", "3", "5", "10", "error", "boom", some "name-defined"⟩
    (by decide) (by decide) (by decide) (by decide)
    (Or.inr (Or.inr ⟨⟨"/a/x.py"⟩, rfl, Or.inr (by decide)⟩))
  rw [h]
  rfl

/-- C2: a matched line whose file capture is neither the sentinel
`"<string>"` nor a suffix of the (nonempty) path of the document being
linted is dropped: `parse_line` returns no diagnostic. -/
theorem parse_line_other_file (line : String) (d : Document) (r : LineMatch)
    (h : lineMatch line = some r) (hfile : r.file ≠ "<string>")
    (hpath : d.path ≠ "") (hsuf : strEndsWith d.path r.file = false) :
    parse_line line (some d) = Except.ok none := by
  have hd : discardsFile r (some d) = true := by
    simp [discardsFile, hfile, hpath, hsuf]
  simp [parse_line, h, hd]

/-- Witness for C2: a diagnostic about `other.py` is discarded when
linting `/a/x.py`. -/
theorem parse_line_other_file_witness :
    parse_line "other.py:1:1:1:2: error: m" (some ⟨"/a/x.py"⟩) = Except.ok none :=
  parse_line_other_file "other.py:1:1:1:2: error: m" ⟨"/a/x.py"⟩
    ⟨"other.py", "1", "1", "1", "2", "error", "m", none⟩
    (by decide) (by decide) (by decide) (by decide)

/-- C7 counterexample: `parse_line` is not total.  The line
`"a:1:::: error: msg"` is accepted by `line_pattern` (the `\d*` groups
match empty), and `int("")` then raises `ValueError`, so `parse_line`
raises instead of discarding the line. -/
theorem parse_line_raises_counterexample :
    (∃ r, lineMatch "a:1:::: error: msg" = some r) ∧
    parse_line "a:1:::: error: msg" none = Except.error "ValueError" :=
  ⟨⟨⟨"a", "1", "", "", "", "error", "msg", none⟩, by decide⟩, by rfl⟩

/-- C7 (amended): every line not matching `line_pattern` is silently
discarded (`parse_line` returns no diagnostic and cannot raise), and on
a matched line the numeric conversions succeed provided the `\d*`
captures (`start_col`, `end_line`, `end_col`) are nonempty; a matched
line with an empty numeric capture, however, raises `ValueError` (see
the counterexample). -/
theorem parse_line_totality (line : String) (doc : Option Document) :
    (lineMatch line = none → parse_line line doc = Except.ok none) ∧
    (∀ r, lineMatch line = some r → r.start_col ≠ "" → r.end_line ≠ "" →
      r.end_col ≠ "" → ∃ d, parse_line line doc = Except.ok d) := by
  constructor
  · intro hn
    simp [parse_line, hn]
  · intro r h hsc hel hec
    by_cases hd : discardsFile r doc
    · exact ⟨none, by simp [parse_line, h, hd]⟩
    · exact ⟨_, parse_line_eval line doc r h (lineMatch_start_line_nonempty h)
        hsc hel hec (by simpa using hd)⟩

/-- Witness for C7 (amended): a mypy summary line is discarded without
raising, and a complete diagnostic line parses successfully. -/
theorem parse_line_totality_witness :
    parse_line "Success: no issues found in 1 source file" none = Except.ok none ∧
    ∃ d, parse_line "x.py:1:2:3:4: note: hi" none = Except.ok d :=
  ⟨(parse_line_totality "Success: no issues found in 1 source file" none).1 (by decide),
   (parse_line_totality "x.py:1:2:3:4: note: hi" none).2
     ⟨"x.py", "1", "2", "3", "4", "note", "hi", none⟩
     (by decide) (by decide) (by decide) (by decide)⟩

/-! ## Diagnostics assembly (`get_diagnostics`, lines 175-276)

The process invocation itself (`mypy_api.run` / `mypy_api.run_dmypy`) is
an external collaborator: it is modelled as an oracle returning
`(report, errors, exit_status)`, and the embedding additionally records
the list of invocations that were issued so that claims about the
argument lists can be stated. -/

/-- Helper for Python `str.splitlines()`: split a character list at
newlines. -/
def splitLinesAux (acc : List Char) : List Char → List String
  | [] => [String.mk acc.reverse]
  | c :: rest =>
    if c == '\n' then String.mk acc.reverse :: splitLinesAux [] rest
    else splitLinesAux (c :: acc) rest

/-- Python `str.splitlines()` for strings whose only line break is `\n`
(the only break mypy emits): split at newlines, without a trailing empty
line when the string ends in a newline, and no lines at all for the
empty string. -/
def pySplitlines (s : String) : List String :=
  if s = "" then []
  else
    let parts := splitLinesAux [] s.toList
    if s.toList.getLast? == some '\n' then parts.dropLast else parts

/-- The synthetic process-failure diagnostic (lines 254-266): anchored
on the first line with a full-width span (the client clips the end
column), severity Error (1) when the checker exited nonzero and
Warning (2) otherwise; the dict carries no `"code"` key. -/
def syntheticDiag (errors : String) (exit_status : Int) : Diagnostic :=
  { source := "mypy",
    range := { start := { line := 0, character := 0 },
               «end» := { line := 0, character := 1000 } },
    message := errors,
    severity := if exit_status ≠ 0 then 1 else 2,
    code := none }

/-- The report loop (lines 268-272): parse each line, appending the
diagnostics that `parse_line` produces; a `ValueError` escaping
`parse_line` propagates. -/
def parse_report_lines (document : Option Document) :
    List String → List Diagnostic → Except String (List Diagnostic)
  | [], acc => .ok acc
  | line :: rest, acc =>
    match parse_line line document with
    | .error e => .error e
    | .ok none => parse_report_lines document rest acc
    | .ok (some d) => parse_report_lines document rest (acc ++ [d])

/-- The diagnostics list built by `get_diagnostics` from one checker
invocation's `(report, errors, exit_status)`: the synthetic stderr
diagnostic first when stderr is truthy (nonempty), then the per-line
diagnostics. -/
def collect_diagnostics (report errors : String) (exit_status : Int)
    (document : Option Document) : Except String (List Diagnostic) :=
  let initial := if errors ≠ "" then [syntheticDiag errors exit_status] else []
  parse_report_lines document (pySplitlines report) initial

lemma except_bind_ok {ε α β : Type} {x : Except ε α} {f : α → Except ε β} {b : β}
    (h : x >>= f = Except.ok b) : ∃ a, x = Except.ok a ∧ f a = Except.ok b := by
  cases x with
  | error e => exact Except.noConfusion h
  | ok a => exact ⟨a, rfl, h⟩

lemma parse_line_code_isSome {line : String} {doc : Option Document} {d : Diagnostic}
    (h : parse_line line doc = Except.ok (some d)) : d.code.isSome := by
  unfold parse_line at h
  cases hm : lineMatch line with
  | none => rw [hm] at h; exact absurd h (by simp)
  | some r =>
    rw [hm] at h
    dsimp only at h
    split at h
    · exact absurd h (by simp)
    · obtain ⟨a1, -, h⟩ := except_bind_ok h
      obtain ⟨a2, -, h⟩ := except_bind_ok h
      obtain ⟨a3, -, h⟩ := except_bind_ok h
      obtain ⟨a4, -, h⟩ := except_bind_ok h
      injection h with h
      injection h with h
      subst h
      rfl

lemma parse_report_lines_shape (document : Option Document) :
    ∀ (lines : List String) (acc diags : List Diagnostic),
      parse_report_lines document lines acc = Except.ok diags →
      ∃ suffix, diags = acc ++ suffix ∧ ∀ d ∈ suffix, d.code.isSome := by
  intro lines
  induction lines with
  | nil =>
    intro acc diags h
    refine ⟨[], ?_, by simp⟩
    have : acc = diags := by
      simpa [parse_report_lines] using h
    simp [this]
  | cons line rest ih =>
    intro acc diags h
    unfold parse_report_lines at h
    cases hp : parse_line line document with
    | error e => rw [hp] at h; exact absurd h (by simp)
    | ok od =>
      rw [hp] at h
      cases od with
      | none =>
        dsimp only at h
        exact ih acc diags h
      | some d =>
        dsimp only at h
        obtain ⟨suffix, hdiags, hall⟩ := ih (acc ++ [d]) diags h
        refine ⟨d :: suffix, by simpa using hdiags, ?_⟩
        intro x hx
        rcases List.mem_cons.mp hx with hx | hx
        · subst hx; exact parse_line_code_isSome hp
        · exact hall x hx

/-- C4 counterexample to the "never raises" clause: with nonempty stderr
the request can still raise, because a report line accepted by the
pattern with an empty numeric capture makes `parse_line` raise
`ValueError` (the defect of C7), which propagates past the synthetic
diagnostic. -/
theorem stderr_result_counterexample :
    collect_diagnostics "a:1:::: error: msg" "boom" 1 none =
      Except.error "ValueError" := by rfl

/-- C4 (amended): whenever stderr is nonempty and the request returns a
diagnostics list, that list contains exactly one synthetic diagnostic —
range `{start:{0,0}, end:{0,1000}}`, severity 1 (Error) when the exit
status is nonzero and 2 (Warning) when it is zero — and it precedes all
per-line diagnostics.  The stderr failure itself is recovered into this
diagnostic rather than raised; the only way the request can still raise
is the `parse_line` `ValueError` defect on a report line (see the
counterexample). -/
theorem stderr_synthetic_diagnostic (report errors : String) (exit_status : Int)
    (document : Option Document) (diags : List Diagnostic)
    (herr : errors ≠ "")
    (hok : collect_diagnostics report errors exit_status document = Except.ok diags) :
    diags.head? = some (syntheticDiag errors exit_status) ∧
    diags.countP (fun d => d == syntheticDiag errors exit_status) = 1 ∧
    (syntheticDiag errors exit_status).range =
      { start := { line := 0, character := 0 },
        «end» := { line := 0, character := 1000 } } ∧
    (syntheticDiag errors exit_status).severity =
      (if exit_status ≠ 0 then 1 else 2) := by
  unfold collect_diagnostics at hok
  rw [if_pos herr] at hok
  obtain ⟨suffix, hd, hall⟩ := parse_report_lines_shape document _ _ _ hok
  subst hd
  refine ⟨by simp, ?_, rfl, rfl⟩
  have hzero : suffix.countP (fun d => d == syntheticDiag errors exit_status) = 0 := by
    rw [List.countP_eq_zero]
    intro d hdm
    have hc := hall d hdm
    simp only [beq_iff_eq]
    intro hEq
    rw [hEq] at hc
    simp [syntheticDiag] at hc
  simp [List.countP_cons, hzero]

/-- Witness for C4 (amended) at a concrete invocation: stderr `"boom"`
with exit status 1 and one report line produce the synthetic Error
diagnostic first, exactly once. -/
theorem stderr_synthetic_diagnostic_witness :
    ([syntheticDiag "boom" 1,
      { source := "mypy",
        range := { start := { line := 0, character := 0 },
                   «end» := { line := 0, character := 2 } },
        message := "m", severity := 1,
        code := some none }] : List Diagnostic).head? =
        some (syntheticDiag "boom" 1) ∧
    ([syntheticDiag "boom" 1,
      { source := "mypy",
        range := { start := { line := 0, character := 0 },
                   «end» := { line := 0, character := 2 } },
        message := "m", severity := 1,
        code := some none }] : List Diagnostic).countP
        (fun d => d == syntheticDiag "boom" 1) = 1 ∧
    (syntheticDiag "boom" 1).range =
      { start := { line := 0, character := 0 },
        «end» := { line := 0, character := 1000 } } ∧
    (syntheticDiag "boom" 1).severity = (if (1 : Int) ≠ 0 then 1 else 2) :=
  stderr_synthetic_diagnostic "x.py:1:1:1:2: error: m" "boom" 1 none _
    (by decide) (by rfl)

/-! ## Invocation orchestration -/

/-- The settings keys that `get_diagnostics` reads, each `Option` to
model `dict.get` with its default. -/
structure Settings where
  dmypy : Option Bool
  live_mode : Option Bool
  strict : Option Bool
  overrides : Option (List PyVal)
deriving DecidableEq, Repr

/-- One external checker invocation and its full argument list. -/
structure Invocation where
  viaDmypy : Bool
  args : List PyVal
deriving DecidableEq, Repr

/-- Oracle for `mypy_api.run` / `mypy_api.run_dmypy`, each returning
`(report, errors, exit_status)`. -/
structure CheckerApi where
  run : List PyVal → String × String × Int
  run_dmypy : List PyVal → String × String × Int

/-- The base argument list built by `get_diagnostics` (lines 208-229)
before mode-specific additions: end-column reporting, summary
suppression, the shadow-file triple when the document is unsaved (the
write of the buffer into the shadow file is external I/O outside this
model; `tmpName` is the shadow file's path), the resolved config file
when one is cached (truthy), the document path, and `--strict` on
demand. -/
def base_args (mypyConfigFile : Option String) (tmpName : String)
    (document : Document) (settings : Settings) (is_saved : Bool) : List PyVal :=
  let args : List PyVal := [.str "--show-error-end", .str "--no-error-summary"]
  let args := if is_saved then args
    else args ++ [.str "--shadow-file", .str document.path, .str tmpName]
  let args := match mypyConfigFile with
    | some cf => if cf ≠ "" then args ++ [.str "--config-file", .str cf] else args
    | none => args
  let args := args ++ [.str document.path]
  if settings.strict.getD false then args ++ [.str "--strict"] else args

/-- Model of `get_diagnostics` (lines 175-276): build the arguments,
invoke the checker once — `mypy_api.run` with
`--incremental --follow-imports silent` in one-shot mode, or
`mypy_api.run_dmypy` with `--status-file <statusFile> run
--export-types --` in daemon mode, both after `apply_overrides` — and
assemble the diagnostics from `(report, errors, exit_status)`.  The
second component records the external invocations issued. -/
def get_diagnostics (api : CheckerApi) (statusFile : String)
    (mypyConfigFile : Option String) (tmpName : String) (document : Document)
    (settings : Settings) (is_saved : Bool) :
    Except String (List Diagnostic) × List Invocation :=
  let dmypy := settings.dmypy.getD false
  let args := base_args mypyConfigFile tmpName document settings is_saved
  let overrides := settings.overrides.getD [.bool true]
  if !dmypy then
    let args := args ++ [.str "--incremental", .str "--follow-imports", .str "silent"]
    let args := apply_overrides args overrides
    let (report, errors, exit_status) := api.run args
    (collect_diagnostics report errors exit_status (some document),
     [{ viaDmypy := false, args := args }])
  else
    let args := [.str "--status-file", .str statusFile, .str "run",
                 .str "--export-types", .str "--"] ++ apply_overrides args overrides
    let (report, errors, exit_status) := api.run_dmypy args
    (collect_diagnostics report errors exit_status (some document),
     [{ viaDmypy := true, args := args }])

/-- C8 counterexample: in daemon mode the lint does NOT query the
daemon's status and does NOT issue a restart command.  At a concrete
daemon-mode lint the whole external trace is a single `run_dmypy`
invocation whose arguments are `--status-file <file> run
--export-types -- ...`, containing neither a `status` nor a `restart`
command word. -/
theorem dmypy_no_status_query_counterexample :
    (get_diagnostics ⟨fun _ => ("", "", 0), fun _ => ("", "", 0)⟩ "/st" none "/tmp/s"
        ⟨"/a.py"⟩ ⟨some true, none, none, none⟩ true).2 =
      [{ viaDmypy := true,
         args := [.str "--status-file", .str "/st", .str "run", .str "--export-types",
                  .str "--", .str "--show-error-end", .str "--no-error-summary",
                  .str "/a.py"] }] ∧
    PyVal.str "status" ∉
      ((get_diagnostics ⟨fun _ => ("", "", 0), fun _ => ("", "", 0)⟩ "/st" none "/tmp/s"
        ⟨"/a.py"⟩ ⟨some true, none, none, none⟩ true).2.headD
        { viaDmypy := true, args := [] }).args ∧
    PyVal.str "restart" ∉
      ((get_diagnostics ⟨fun _ => ("", "", 0), fun _ => ("", "", 0)⟩ "/st" none "/tmp/s"
        ⟨"/a.py"⟩ ⟨some true, none, none, none⟩ true).2.headD
        { viaDmypy := true, args := [] }).args := by
  refine ⟨by rfl, by decide, by decide⟩

/-- C8 (amended): in daemon mode every lint issues exactly one daemon
command — no status query and no restart — namely `run` with
`--status-file <statusFile>` first, then `--export-types --`, then the
override-merged argument list. -/
theorem dmypy_single_run_invocation (api : CheckerApi) (statusFile : String)
    (mypyConfigFile : Option String) (tmpName : String) (document : Document)
    (settings : Settings) (is_saved : Bool)
    (h : settings.dmypy = some true) :
    (get_diagnostics api statusFile mypyConfigFile tmpName document settings
        is_saved).2 =
      [{ viaDmypy := true,
         args := [.str "--status-file", .str statusFile, .str "run",
                  .str "--export-types", .str "--"] ++
           apply_overrides
             (base_args mypyConfigFile tmpName document settings is_saved)
             (settings.overrides.getD [.bool true]) }] := by
  unfold get_diagnostics
  rw [h]
  rfl

/-- Witness for C8 (amended) at a concrete daemon-mode lint. -/
theorem dmypy_single_run_invocation_witness :
    (get_diagnostics ⟨fun _ => ("", "", 0), fun _ => ("", "", 1)⟩ "/status.json"
        (some "/ws/mypy.ini") "/tmp/shadow" ⟨"/ws/a.py"⟩
        ⟨some true, none, some true, some [.str "--pre", .bool true]⟩ false).2 =
      [{ viaDmypy := true,
         args := [.str "--status-file", .str "/status.json", .str "run",
                  .str "--export-types", .str "--"] ++
           apply_overrides
             (base_args (some "/ws/mypy.ini") "/tmp/shadow" ⟨"/ws/a.py"⟩
               ⟨some true, none, some true, some [.str "--pre", .bool true]⟩ false)
             ((⟨some true, none, some true,
                 some [.str "--pre", .bool true]⟩ : Settings).overrides.getD
               [.bool true]) }] :=
  dmypy_single_run_invocation ⟨fun _ => ("", "", 0), fun _ => ("", "", 1)⟩
    "/status.json" (some "/ws/mypy.ini") "/tmp/shadow" ⟨"/ws/a.py"⟩
    ⟨some true, none, some true, some [.str "--pre", .bool true]⟩ false rfl

/-! ## Config-file search (`findConfigFile`, lines 470-534)

Filesystem paths are modelled as component lists rooted at `/`.  The
filesystem itself and the content checks (`tomllib.load(...)` for a
`[tool.*]` table, `ConfigParser` for a `[mypy]` section) are external
collaborators, modelled as oracles in `FS`. -/

/-- A filesystem path as its list of components from the root. -/
abbrev FPath := List String

/-- `pathlib` `joinpath` with a single (possibly empty) part: empty
parts are ignored. -/
def pyJoin (p : FPath) (s : String) : FPath :=
  if s = "" then p else p ++ [s]

/-- `Path.name`: the final component. -/
def fileName (p : FPath) : String := p.getLastD ""

/-- `str(file)` for an absolute path. -/
def render (p : FPath) : String := "/" ++ String.intercalate "/" p

/-- The list `[p, p.parent, ..., root]` (the prefixes of `p`, longest
first, down to the empty path = the filesystem root). -/
def ancestors (p : FPath) : List FPath :=
  (List.range (p.length + 1)).map (fun k => p.take (p.length - k))

/-- `pathlib` `.parents` of a path: all strict prefixes, nearest
first. -/
def pyParents (p : FPath) : List FPath := ancestors p.dropLast

/-- Oracles for the filesystem and the config-format probes used by
`findConfigFile`:
`isFile p` is `Path.is_file()`;
`pyprojectHasTool p s` is whether the toml file at `p` has a non-`None`
`[tool.<s>]` entry; `setupCfgHasMypy p` is whether the ini file at `p`
has a `[mypy]` section; `expanduser`/`pathExists` serve the user-global
fallback paths, and `xdgConfigHome` is the environment variable. -/
structure FS where
  isFile : FPath → Bool
  pyprojectHasTool : FPath → String → Bool
  setupCfgHasMypy : FPath → Bool
  xdgConfigHome : Option String
  expanduser : String → String
  pathExists : String → Bool

/-- The `NameError` text raised for the permanently rejected legacy
names. -/
def legacyMsg (file : FPath) : String :=
  render file ++ ": " ++ fileName file ++ " is no longer supported, you should " ++
    "rename your config file to pylsp-mypy.cfg or preferably use a " ++
    "pyproject.toml instead."

/-- Innermost loop of `findConfigFile`: `for subPath in [""] +
configSubPaths`, testing `parent/subPath/name`.  A legacy name raises;
a `pyproject.toml` without the relevant `[tool.*]` table and a
`setup.cfg` without `[mypy]` are skipped (`continue`); any other
existing file is returned at once. -/
def trySubs (fs : FS) (mypy : Bool) (parent : FPath) (name : String) :
    List String → Except String (Option String)
  | [] => .ok none
  | sp :: sps =>
    let file := pyJoin (pyJoin parent sp) name
    if fs.isFile file then
      if fileName file = "mypy-ls.cfg" ∨ fileName file = "mypy_ls.cfg" then
        .error (legacyMsg file)
      else if fileName file = "pyproject.toml" ∧
          fs.pyprojectHasTool file (if mypy then "mypy" else "pylsp-mypy") = false then
        trySubs fs mypy parent name sps
      else if fileName file = "setup.cfg" ∧ fs.setupCfgHasMypy file = false then
        trySubs fs mypy parent name sps
      else
        .ok (some (render file))
    else trySubs fs mypy parent name sps

/-- Middle loop: `for name in names` (caller priority order). -/
def tryNames (fs : FS) (mypy : Bool) (parent : FPath) (subs : List String) :
    List String → Except String (Option String)
  | [] => .ok none
  | n :: ns =>
    match trySubs fs mypy parent n ("" :: subs) with
    | .error e => .error e
    | .ok (some s) => .ok (some s)
    | .ok none => tryNames fs mypy parent subs ns

/-- Outer loop: `for parent in start.parents` (nearest ancestor
first). -/
def tryParents (fs : FS) (mypy : Bool) (subs : List String) (names : List String) :
    List FPath → Except String (Option String)
  | [] => .ok none
  | p :: ps =>
    match tryNames fs mypy p subs names with
    | .error e => .error e
    | .ok (some s) => .ok (some s)
    | .ok none => tryParents fs mypy subs names ps

/-- The mypy user-global fallback candidates: `$XDG_CONFIG_HOME/mypy/config`
first when the variable is set and truthy, then `~/.config/mypy/config`
and `~/.mypy.ini`. -/
def defaultPaths (fs : FS) : List String :=
  let base := ["~/.config/mypy/config", "~/.mypy.ini"]
  match fs.xdgConfigHome with
  | some x => if x ≠ "" then (x ++ "/mypy/config") :: base else base
  | none => base

/-- Model of `findConfigFile(path, configSubPaths, names, mypy)`:
walk the parents of `path/names[0]` (which are `path` and its
ancestors), names in priority order, sub-paths innermost; on no match,
fall back to the mypy user-global locations when `mypy` is set.
`Except` models the `NameError` raised for legacy filenames (and the
`IndexError` of `names[0]` on an empty name list). -/
def findConfigFile (fs : FS) (path : FPath) (configSubPaths : List String)
    (names : List String) (mypy : Bool) : Except String (Option String) :=
  match names with
  | [] => .error "IndexError"
  | n0 :: _ =>
    match tryParents fs mypy configSubPaths names (pyParents (path ++ [n0])) with
    | .error e => .error e
    | .ok (some s) => .ok (some s)
    | .ok none =>
      if mypy then
        match (defaultPaths fs).find? (fun p => fs.pathExists (fs.expanduser p)) with
        | some p => .ok (some (fs.expanduser p))
        | none => .ok none
      else .ok none

/-! Reference enumeration for C5: the flattened candidate list in the
claimed order — ancestor outermost (nearest to farthest), candidate
name in priority order in the middle, search path from
`[""] ++ configSubPaths` innermost. -/

/-- All candidate files in the claimed search order. -/
def candidates (path : FPath) (configSubPaths : List String)
    (names : List String) : List FPath :=
  (pyParents (path ++ [names.headD ""])).flatMap (fun anc =>
    names.flatMap (fun n =>
      ("" :: configSubPaths).map (fun sp => pyJoin (pyJoin anc sp) n)))

/-- What the loop body decides for one candidate: `none` when the
candidate is skipped (missing, or failing its format check), otherwise
the immediate outcome — the returned path, or the legacy-name error. -/
def stepCand (fs : FS) (mypy : Bool) (file : FPath) : Option (Except String String) :=
  if fs.isFile file then
    if fileName file = "mypy-ls.cfg" ∨ fileName file = "mypy_ls.cfg" then
      some (.error (legacyMsg file))
    else if fileName file = "pyproject.toml" ∧
        fs.pyprojectHasTool file (if mypy then "mypy" else "pylsp-mypy") = false then
      none
    else if fileName file = "setup.cfg" ∧ fs.setupCfgHasMypy file = false then
      none
    else
      some (.ok (render file))
  else none

/-- Lift a first-hit outcome to the loop's return type. -/
def collapse : Option (Except String String) → Except String (Option String)
  | none => .ok none
  | some (.error e) => .error e
  | some (.ok s) => .ok (some s)

lemma trySubs_cons (fs : FS) (mypy : Bool) (parent : FPath) (name sp : String)
    (sps : List String) :
    trySubs fs mypy parent name (sp :: sps) =
      match stepCand fs mypy (pyJoin (pyJoin parent sp) name) with
      | some (.error e) => .error e
      | some (.ok s) => .ok (some s)
      | none => trySubs fs mypy parent name sps := by
  have hL : trySubs fs mypy parent name (sp :: sps) =
      (if fs.isFile (pyJoin (pyJoin parent sp) name) then
        if fileName (pyJoin (pyJoin parent sp) name) = "mypy-ls.cfg" ∨
            fileName (pyJoin (pyJoin parent sp) name) = "mypy_ls.cfg" then
          Except.error (legacyMsg (pyJoin (pyJoin parent sp) name))
        else if fileName (pyJoin (pyJoin parent sp) name) = "pyproject.toml" ∧
            fs.pyprojectHasTool (pyJoin (pyJoin parent sp) name)
              (if mypy then "mypy" else "pylsp-mypy") = false then
          trySubs fs mypy parent name sps
        else if fileName (pyJoin (pyJoin parent sp) name) = "setup.cfg" ∧
            fs.setupCfgHasMypy (pyJoin (pyJoin parent sp) name) = false then
          trySubs fs mypy parent name sps
        else
          Except.ok (some (render (pyJoin (pyJoin parent sp) name)))
      else trySubs fs mypy parent name sps) := rfl
  rw [hL]
  unfold stepCand
  split_ifs <;> rfl

lemma trySubs_eq (fs : FS) (mypy : Bool) (parent : FPath) (name : String)
    (sps : List String) :
    trySubs fs mypy parent name sps =
      collapse ((sps.map (fun sp => pyJoin (pyJoin parent sp) name)).findSome?
        (stepCand fs mypy)) := by
  induction sps with
  | nil => rfl
  | cons sp sps ih =>
    rw [List.map_cons, List.findSome?_cons, trySubs_cons]
    cases hstep : stepCand fs mypy (pyJoin (pyJoin parent sp) name) with
    | none => simpa [collapse] using ih
    | some r => cases r <;> simp [collapse]

lemma tryNames_eq (fs : FS) (mypy : Bool) (parent : FPath) (subs : List String)
    (names : List String) :
    tryNames fs mypy parent subs names =
      collapse ((names.flatMap (fun n =>
        ("" :: subs).map (fun sp => pyJoin (pyJoin parent sp) n))).findSome?
          (stepCand fs mypy)) := by
  induction names with
  | nil => rfl
  | cons n ns ih =>
    rw [List.flatMap_cons, List.findSome?_append]
    unfold tryNames
    rw [trySubs_eq fs mypy parent n ("" :: subs)]
    cases hfs : (((("" :: subs)).map (fun sp => pyJoin (pyJoin parent sp) n)).findSome?
        (stepCand fs mypy)) with
    | none => simpa [collapse, Option.or] using ih
    | some r => cases r <;> simp [collapse, Option.or]

lemma tryParents_eq (fs : FS) (mypy : Bool) (subs : List String)
    (names : List String) (parents : List FPath) :
    tryParents fs mypy subs names parents =
      collapse ((parents.flatMap (fun anc =>
        names.flatMap (fun n =>
          ("" :: subs).map (fun sp => pyJoin (pyJoin anc sp) n)))).findSome?
            (stepCand fs mypy)) := by
  induction parents with
  | nil => rfl
  | cons p ps ih =>
    rw [List.flatMap_cons, List.findSome?_append]
    unfold tryParents
    rw [tryNames_eq fs mypy p subs names]
    cases hfs : ((names.flatMap (fun n =>
        ("" :: subs).map (fun sp => pyJoin (pyJoin p sp) n))).findSome?
          (stepCand fs mypy)) with
    | none => simpa [collapse, Option.or] using ih
    | some r => cases r <;> simp [collapse, Option.or]

/-- C5: `findConfigFile` searches exactly the flattened candidate list
`candidates` — ancestors of the start path outermost (nearest to
farthest, ending at the root), candidate filenames in caller priority
order in the middle, and search paths from `[""] ++ configSubPaths`
innermost, testing existence of `ancestor/searchPath/candidateName` —
and the first candidate that is not skipped (existing and
format-valid, per `stepCand`) decides the result immediately. -/
theorem findConfigFile_search_order (fs : FS) (path : FPath)
    (configSubPaths : List String) (names : List String) (mypy : Bool)
    (r : Except String String) (hn : names ≠ [])
    (h : (candidates path configSubPaths names).findSome? (stepCand fs mypy) =
      some r) :
    findConfigFile fs path configSubPaths names mypy = collapse (some r) := by
  match names, hn with
  | n0 :: ns, _ =>
    unfold findConfigFile
    dsimp only
    rw [tryParents_eq fs mypy configSubPaths (n0 :: ns) (pyParents (path ++ [n0]))]
    have hc : candidates path configSubPaths (n0 :: ns) =
        (pyParents (path ++ [n0])).flatMap (fun anc =>
          (n0 :: ns).flatMap (fun n =>
            ("" :: configSubPaths).map (fun sp => pyJoin (pyJoin anc sp) n))) := rfl
    rw [hc] at h
    rw [h]
    cases r <;> rfl

/-- A sample filesystem: the only file is `/ws/pyproject.toml`, which
carries the relevant `[tool.*]` table. -/
def sampleFS : FS :=
  { isFile := fun p => p == ["ws", "pyproject.toml"],
    pyprojectHasTool := fun _ _ => true,
    setupCfgHasMypy := fun _ => false,
    xdgConfigHome := none,
    expanduser := id,
    pathExists := fun _ => false }

/-- Witness for C5: searching for the checker config from `/ws/sub`
with the real candidate list finds `/ws/pyproject.toml` (skipping the
nearer ancestor `/ws/sub` and the higher-priority names that do not
exist). -/
theorem findConfigFile_search_order_witness :
    findConfigFile sampleFS ["ws", "sub"] []
        ["mypy.ini", ".mypy.ini", "pyproject.toml", "setup.cfg"] true =
      Except.ok (some "/ws/pyproject.toml") := by
  have h := findConfigFile_search_order sampleFS ["ws", "sub"] []
    ["mypy.ini", ".mypy.ini", "pyproject.toml", "setup.cfg"] true
    (.ok "/ws/pyproject.toml") (by decide) (by rfl)
  exact h

lemma fileName_pyJoin (q : FPath) {n : String} (hn : n ≠ "") :
    fileName (pyJoin q n) = n := by
  simp [pyJoin, fileName, hn]

/-- C6: during config resolution an existing `pyproject.toml` is
accepted only when it contains the relevant `[tool.*]` table
(`[tool.mypy]` for the checker config, `[tool.pylsp-mypy]` for the
plugin config), and an existing `setup.cfg` only when it contains a
`[mypy]` section; otherwise that match is skipped and the innermost
loop continues with the remaining candidates (and, by the loop
structure proved for C5, with later names and farther ancestors). -/
theorem config_format_gate (fs : FS) (mypy : Bool) (parent : FPath)
    (sp : String) (sps : List String) :
    (fs.isFile (pyJoin (pyJoin parent sp) "pyproject.toml") = true →
      fs.pyprojectHasTool (pyJoin (pyJoin parent sp) "pyproject.toml")
          (if mypy then "mypy" else "pylsp-mypy") = false →
      trySubs fs mypy parent "pyproject.toml" (sp :: sps) =
        trySubs fs mypy parent "pyproject.toml" sps) ∧
    (fs.isFile (pyJoin (pyJoin parent sp) "pyproject.toml") = true →
      fs.pyprojectHasTool (pyJoin (pyJoin parent sp) "pyproject.toml")
          (if mypy then "mypy" else "pylsp-mypy") = true →
      trySubs fs mypy parent "pyproject.toml" (sp :: sps) =
        Except.ok (some (render (pyJoin (pyJoin parent sp) "pyproject.toml")))) ∧
    (fs.isFile (pyJoin (pyJoin parent sp) "setup.cfg") = true →
      fs.setupCfgHasMypy (pyJoin (pyJoin parent sp) "setup.cfg") = false →
      trySubs fs mypy parent "setup.cfg" (sp :: sps) =
        trySubs fs mypy parent "setup.cfg" sps) ∧
    (fs.isFile (pyJoin (pyJoin parent sp) "setup.cfg") = true →
      fs.setupCfgHasMypy (pyJoin (pyJoin parent sp) "setup.cfg") = true →
      trySubs fs mypy parent "setup.cfg" (sp :: sps) =
        Except.ok (some (render (pyJoin (pyJoin parent sp) "setup.cfg")))) := by
  have hp : fileName (pyJoin (pyJoin parent sp) "pyproject.toml") = "pyproject.toml" :=
    fileName_pyJoin _ (by decide)
  have hs : fileName (pyJoin (pyJoin parent sp) "setup.cfg") = "setup.cfg" :=
    fileName_pyJoin _ (by decide)
  refine ⟨fun hf hcond => ?_, fun hf hcond => ?_, fun hf hcond => ?_,
      fun hf hcond => ?_⟩
  · rw [trySubs_cons]
    have hstep : stepCand fs mypy (pyJoin (pyJoin parent sp) "pyproject.toml") =
        none := by
      unfold stepCand
      simp [hp, hf, hcond]
    rw [hstep]
  · rw [trySubs_cons]
    have hstep : stepCand fs mypy (pyJoin (pyJoin parent sp) "pyproject.toml") =
        some (.ok (render (pyJoin (pyJoin parent sp) "pyproject.toml"))) := by
      unfold stepCand
      simp [hp, hf, hcond]
    rw [hstep]
  · rw [trySubs_cons]
    have hstep : stepCand fs mypy (pyJoin (pyJoin parent sp) "setup.cfg") =
        none := by
      unfold stepCand
      simp [hs, hf, hcond]
    rw [hstep]
  · rw [trySubs_cons]
    have hstep : stepCand fs mypy (pyJoin (pyJoin parent sp) "setup.cfg") =
        some (.ok (render (pyJoin (pyJoin parent sp) "setup.cfg"))) := by
      unfold stepCand
      simp [hs, hf, hcond]
    rw [hstep]

/-- A filesystem where `/ws/pyproject.toml` and `/ws/setup.cfg` exist
but carry no relevant section. -/
def gateFSNone : FS :=
  { isFile := fun p => p == ["ws", "pyproject.toml"] || p == ["ws", "setup.cfg"],
    pyprojectHasTool := fun _ _ => false,
    setupCfgHasMypy := fun _ => false,
    xdgConfigHome := none,
    expanduser := id,
    pathExists := fun _ => false }

/-- A filesystem where `/ws/pyproject.toml` carries the relevant
`[tool.*]` table and `/ws/setup.cfg` a `[mypy]` section. -/
def gateFSWith : FS :=
  { isFile := fun p => p == ["ws", "pyproject.toml"] || p == ["ws", "setup.cfg"],
    pyprojectHasTool := fun _ _ => true,
    setupCfgHasMypy := fun _ => true,
    xdgConfigHome := none,
    expanduser := id,
    pathExists := fun _ => false }

/-- Witness for C6: an existing `/ws/pyproject.toml` without
`[tool.mypy]` (resp. `setup.cfg` without `[mypy]`) is skipped and the
search continues with the remaining candidates, while the same files
with the relevant sections are accepted immediately. -/
theorem config_format_gate_witness :
    (trySubs gateFSNone true ["ws"] "pyproject.toml" ["", "sub"] =
      trySubs gateFSNone true ["ws"] "pyproject.toml" ["sub"]) ∧
    (trySubs gateFSWith true ["ws"] "pyproject.toml" ["", "sub"] =
      Except.ok (some (render (pyJoin (pyJoin ["ws"] "") "pyproject.toml")))) ∧
    (trySubs gateFSNone true ["ws"] "setup.cfg" ["", "sub"] =
      trySubs gateFSNone true ["ws"] "setup.cfg" ["sub"]) ∧
    (trySubs gateFSWith true ["ws"] "setup.cfg" ["", "sub"] =
      Except.ok (some (render (pyJoin (pyJoin ["ws"] "") "setup.cfg")))) :=
  ⟨(config_format_gate gateFSNone true ["ws"] "" ["sub"]).1 (by decide) (by rfl),
   (config_format_gate gateFSWith true ["ws"] "" ["sub"]).2.1 (by decide) (by rfl),
   (config_format_gate gateFSNone true ["ws"] "" ["sub"]).2.2.1 (by decide) (by rfl),
   (config_format_gate gateFSWith true ["ws"] "" ["sub"]).2.2.2 (by decide) (by rfl)⟩

/-! ## The shutdown hook (`close`, lines 537-555)

The world state carries the existing files and directories and the
outcome of parsing the status file (`json.load` + `.get("connection_name")`);
the daemon `stop` command is external and has no filesystem effect
modelled here.  `Except` models an exception escaping the hook. -/

structure World where
  files : List String
  dirs : List String
  statusParse : Except String (Option String)
deriving Repr

/-- `os.unlink`: raises `FileNotFoundError` when the file is absent. -/
def osUnlink (w : World) (p : String) : Except String World :=
  if p ∈ w.files then .ok { w with files := w.files.erase p }
  else .error "FileNotFoundError"

/-- `os.rmdir`: raises when the directory is absent (or not removable). -/
def osRmdir (w : World) (p : String) : Except String World :=
  if p ∈ w.dirs then .ok { w with dirs := w.dirs.erase p }
  else .error "OSError"

/-- Python `os.path.dirname`: everything before the last `/` (empty
when there is none). -/
def dirname (s : String) : String :=
  match s.toList.reverse.dropWhile (· != '/') with
  | [] => ""
  | _ :: rest => String.mk rest.reverse

/-- The `try: os.unlink(sock); os.rmdir(os.path.dirname(sock))
except Exception: pass` block: every failure is swallowed (a `None`
sock raises `TypeError` inside the same swallow), but effects performed
before a failure persist. -/
def tryCleanupSock2 (w : World) (s : String) : World :=
  match osUnlink w s with
  | .error _ => w
  | .ok w1 =>
    match osRmdir w1 (dirname s) with
    | .error _ => w1
    | .ok w2 => w2

def tryCleanupSock : World → Option String → World
  | w, none => w
  | w, some s => tryCleanupSock2 w s

/-- The status-file block of `close` (lines 544-555): when the status
file exists, parse it (a `json.load` failure propagates), clean up the
socket with failures swallowed, then unlink the status file. -/
def closeStatusPhase (statusFile : String) (w : World) : Except String World :=
  if statusFile ∈ w.files then
    match w.statusParse with
    | .error e => .error e
    | .ok sock => osUnlink (tryCleanupSock w sock) statusFile
  else .ok w

/-- Model of the `atexit` hook `close()`: `dmypy stop` (external), then
`if tmpFile and tmpFile.name: os.unlink(tmpFile.name)` — NOT guarded
against the file being gone — then the status-file block. -/
def close : Option String → String → World → Except String World
  | some name, statusFile, w =>
    if name ≠ "" then
      match osUnlink w name with
      | .error e => .error e
      | .ok w1 => closeStatusPhase statusFile w1
    else closeStatusPhase statusFile w
  | none, statusFile, w => closeStatusPhase statusFile w

lemma tryCleanupSock_files (w : World) (sock : Option String) :
    (tryCleanupSock w sock).files =
      match sock with
      | none => w.files
      | some s => if s ∈ w.files then w.files.erase s else w.files := by
  cases sock with
  | none => rfl
  | some s =>
    show (tryCleanupSock2 w s).files = if s ∈ w.files then w.files.erase s else w.files
    by_cases hs : s ∈ w.files
    · have h1 : osUnlink w s = Except.ok { w with files := w.files.erase s } := by
        unfold osUnlink
        rw [if_pos hs]
      have he : tryCleanupSock2 w s =
          match osRmdir { w with files := w.files.erase s } (dirname s) with
          | .error _ => { w with files := w.files.erase s }
          | .ok w2 => w2 := by
        unfold tryCleanupSock2
        rw [h1]
      rw [he, if_pos hs]
      cases h2 : osRmdir { w with files := w.files.erase s } (dirname s) with
      | error e => rfl
      | ok w2 =>
        unfold osRmdir at h2
        split at h2
        · injection h2 with h2
          subst h2
          rfl
        · exact Except.noConfusion h2
    · have h1 : osUnlink w s = Except.error "FileNotFoundError" := by
        unfold osUnlink
        rw [if_neg hs]
      have he : tryCleanupSock2 w s = w := by
        unfold tryCleanupSock2
        rw [h1]
      rw [he, if_neg hs]

lemma tryCleanupSock_statusParse (w : World) (sock : Option String) :
    (tryCleanupSock w sock).statusParse = w.statusParse := by
  cases sock with
  | none => rfl
  | some s =>
    show (tryCleanupSock2 w s).statusParse = w.statusParse
    cases h1 : osUnlink w s with
    | error e =>
      have he : tryCleanupSock2 w s = w := by
        unfold tryCleanupSock2
        rw [h1]
      rw [he]
    | ok w1 =>
      have hsp1 : w1.statusParse = w.statusParse := by
        unfold osUnlink at h1
        split at h1
        · injection h1 with h1
          subst h1
          rfl
        · exact Except.noConfusion h1
      have he : tryCleanupSock2 w s =
          match osRmdir w1 (dirname s) with
          | .error _ => w1
          | .ok w2 => w2 := by
        unfold tryCleanupSock2
        rw [h1]
      rw [he]
      cases h2 : osRmdir w1 (dirname s) with
      | error e => exact hsp1
      | ok w2 =>
        have hsp2 : w2.statusParse = w1.statusParse := by
          unfold osRmdir at h2
          split at h2
          · injection h2 with h2
            subst h2
            rfl
          · exact Except.noConfusion h2
        rw [hsp2, hsp1]

lemma closeStatusPhase_ok (sf : String) (w : World) (hnd : w.files.Nodup)
    (hstat : sf ∈ w.files → ∃ sock, w.statusParse = .ok sock ∧
      ∀ s, sock = some s → s ≠ sf) :
    ∃ w', closeStatusPhase sf w = Except.ok w' ∧ sf ∉ w'.files ∧
      ∀ x, x ∈ w'.files → x ∈ w.files := by
  by_cases hsf : sf ∈ w.files
  · obtain ⟨sock, hparse, hne⟩ := hstat hsf
    have hmem : sf ∈ (tryCleanupSock w sock).files := by
      rw [tryCleanupSock_files]
      cases sock with
      | none => exact hsf
      | some s =>
        have hssf : sf ≠ s := (hne s rfl).symm
        by_cases hs : s ∈ w.files
        · simpa [hs] using (List.mem_erase_of_ne hssf).mpr hsf
        · simpa [hs] using hsf
    have hnd' : (tryCleanupSock w sock).files.Nodup := by
      rw [tryCleanupSock_files]
      cases sock with
      | none => exact hnd
      | some s =>
        by_cases hs : s ∈ w.files
        · simpa [hs] using hnd.erase s
        · simpa [hs] using hnd
    have hres : closeStatusPhase sf w =
        Except.ok { tryCleanupSock w sock with
          files := (tryCleanupSock w sock).files.erase sf } := by
      unfold closeStatusPhase
      rw [if_pos hsf, hparse]
      show osUnlink (tryCleanupSock w sock) sf = _
      unfold osUnlink
      rw [if_pos hmem]
    refine ⟨_, hres, ?_, ?_⟩
    · intro hc
      exact absurd ((hnd'.mem_erase_iff).mp hc).1 (by simp)
    · intro x hx
      have hx' : x ∈ (tryCleanupSock w sock).files := List.mem_of_mem_erase hx
      rw [tryCleanupSock_files] at hx'
      cases sock with
      | none => exact hx'
      | some s =>
        dsimp only at hx'
        by_cases hs : s ∈ w.files
        · rw [if_pos hs] at hx'
          exact List.mem_of_mem_erase hx'
        · rwa [if_neg hs] at hx'
  · have hres : closeStatusPhase sf w = Except.ok w := by
      unfold closeStatusPhase
      rw [if_neg hsf]
    exact ⟨w, hres, hsf, fun x hx => hx⟩

/-- C9 counterexample: the shutdown hook is not a never-raising,
idempotent cleanup in every state.  With the shadow-file handle set but
the file already gone (as after a previous invocation has unlinked it),
`os.unlink(tmpFile.name)` raises `FileNotFoundError` out of `close`. -/
theorem close_raises_counterexample :
    close (some "/tmp/shadow") "/status.json"
        { files := [], dirs := [], statusParse := .ok none } =
      Except.error "FileNotFoundError" := by rfl

/-- C9 (amended): `close` returns without raising — removing the shadow
file and the status file — provided the tracked shadow file (when its
name is truthy) still exists and the status file, when present, parses
to a connection name different from the status file itself; all
socket/directory cleanup failures are swallowed (no hypothesis
constrains the socket or its directory).  Calling it again with the
stale shadow-file handle, however, raises (see the counterexample), so
the hook is not idempotent. -/
theorem close_never_raises (tmp : Option String) (sf : String) (w : World)
    (hnd : w.files.Nodup)
    (htmp : ∀ n, tmp = some n → n ≠ "" → n ∈ w.files)
    (hstat : sf ∈ w.files → ∃ sock, w.statusParse = .ok sock ∧
      ∀ s, sock = some s → s ≠ sf) :
    ∃ w', close tmp sf w = Except.ok w' ∧
      (∀ n, tmp = some n → n ≠ "" → n ∉ w'.files) ∧ sf ∉ w'.files := by
  cases tmp with
  | none =>
    obtain ⟨w', hw', hsf', _⟩ := closeStatusPhase_ok sf w hnd hstat
    refine ⟨w', hw', ?_, hsf'⟩
    intro n hn
    cases hn
  | some n =>
    by_cases hn : n = ""
    · subst hn
      obtain ⟨w', hw', hsf', _⟩ := closeStatusPhase_ok sf w hnd hstat
      refine ⟨w', ?_, ?_, hsf'⟩
      · unfold close
        simpa using hw'
      · intro n' hn' hne'
        cases hn'
        exact absurd rfl hne'
    · have hmem := htmp n rfl hn
      have hunlink : osUnlink w n = Except.ok { w with files := w.files.erase n } := by
        unfold osUnlink
        rw [if_pos hmem]
      have hnd1 : ({ w with files := w.files.erase n } : World).files.Nodup :=
        hnd.erase n
      have hstat1 : sf ∈ ({ w with files := w.files.erase n } : World).files →
          ∃ sock, ({ w with files := w.files.erase n } : World).statusParse = .ok sock ∧
            ∀ s, sock = some s → s ≠ sf := by
        intro hsf
        exact hstat (List.mem_of_mem_erase hsf)
      obtain ⟨w', hw', hsf', hsub⟩ :=
        closeStatusPhase_ok sf { w with files := w.files.erase n } hnd1 hstat1
      refine ⟨w', ?_, ?_, hsf'⟩
      · have hclose : close (some n) sf w =
            match osUnlink w n with
            | .error e => .error e
            | .ok w1 => closeStatusPhase sf w1 := by
          show (if n ≠ "" then
              match osUnlink w n with
              | .error e => .error e
              | .ok w1 => closeStatusPhase sf w1
            else closeStatusPhase sf w) = _
          rw [if_pos hn]
        rw [hclose, hunlink]
        exact hw'
      · intro n' hn' _
        injection hn' with hn'
        subst hn'
        intro hc
        have hmem' := hsub n hc
        exact absurd ((hnd.mem_erase_iff).mp hmem').1 (by simp)

/-- Witness for C9 (amended): a concrete state where the shadow and
status files exist and the recorded socket does not (its unlink fails
and is swallowed); `close` succeeds and removes both files. -/
theorem close_never_raises_witness :
    ∃ w', close (some "/tmp/shadow") "/status.json"
        { files := ["/tmp/shadow", "/status.json"], dirs := [],
          statusParse := .ok (some "/run/dmypy/sock") } = Except.ok w' ∧
      (∀ n, (some "/tmp/shadow" : Option String) = some n → n ≠ "" →
        n ∉ w'.files) ∧
      "/status.json" ∉ w'.files :=
  close_never_raises (some "/tmp/shadow") "/status.json"
    { files := ["/tmp/shadow", "/status.json"], dirs := [],
      statusParse := .ok (some "/run/dmypy/sock") }
    (by decide)
    (by intro n hn hne; injection hn with hn; subst hn; decide)
    (by
      intro _
      exact ⟨some "/run/dmypy/sock", rfl, by
        intro s hs
        injection hs with hs
        subst hs
        decide⟩)

end PylspMypy
